import Mathlib

/-!
Verification of the statistical projection engine of the abacus-scraper
repository (`src/projection.py`), following its `analyze` pipeline and the
dataset-construction functions it relies on.

Modelling conventions.

Numbers are exact rationals (`ℚ`).  The Python code computes with IEEE
floats and, after every derivation stage, sweeps non-finite values to `0`
(`replace([inf, -inf], 0)` together with `fillna(0)`).  We model a possibly
non-finite intermediate value as `Option ℚ`, with `none` standing for any of
NaN / +inf / -inf; arithmetic treats `none` as absorbing, `x / 0` produces
`none`, and `clean` realises the sweep-to-zero cleanup.  This is faithful at
every cleaned boundary: in the source, every non-finite intermediate either
propagates to a non-finite value that the stage-final cleanup maps to `0`,
or (the case `finite / inf = 0`) becomes a `0` that coincides with
`clean none`.

The pandas `.replace(0, 0.0001)` epsilon guard on denominators is modelled
literally by `epsGuard` / `epsGuardV` with `eps = 1/10000`.
-/

/-- Absorbing multiplication: any non-finite operand poisons the result,
mirroring IEEE arithmetic followed by the sweep-to-zero cleanup. -/
def vmul : Option ℚ → Option ℚ → Option ℚ
  | some a, some b => some (a * b)
  | _, _ => none

/-- Absorbing addition on possibly non-finite values. -/
def vadd : Option ℚ → Option ℚ → Option ℚ
  | some a, some b => some (a + b)
  | _, _ => none

/-- Division of finite values; a zero denominator yields a non-finite
result (IEEE `x/0 = ±inf`, `0/0 = NaN`). -/
def vdiv (a b : ℚ) : Option ℚ :=
  if b = 0 then none else some (a / b)

/-- Division where both operands may already be non-finite. -/
def vdivV : Option ℚ → Option ℚ → Option ℚ
  | some a, some b => if b = 0 then none else some (a / b)
  | _, _ => none

/-- Cleanup sweep: the source replaces NaN and ±inf by `0` after each
derivation stage (`replace([np.inf, -np.inf], 0)` / `fillna(0)`). -/
def clean (v : Option ℚ) : ℚ :=
  v.getD 0

/-- Epsilon used by the source's `.replace(0, 0.0001)` denominator guard. -/
def eps : ℚ := 1 / 10000

/-- Guard applied to a finite denominator: an exact zero becomes `eps`. -/
def epsGuard (d : ℚ) : ℚ :=
  if d = 0 then eps else d

/-- Guard applied to a possibly non-finite denominator: only an exact zero
is replaced (pandas `.replace(0, 0.0001)` leaves NaN/inf untouched). -/
def epsGuardV (d : Option ℚ) : Option ℚ :=
  if d = some 0 then some eps else d

/-- One value per statistical column of the team table, in the column order
of `analyze` (offensive columns then the `def_`-prefixed defensive mirror).
`receptions` is the source's `rec` column, renamed because `rec` is reserved
in Lean. -/
structure Stats (α : Type) where
  pass_cmp : α
  pass_att : α
  pass_yd : α
  pass_td : α
  pass_int : α
  sacks : α
  rush_att : α
  rush_yd : α
  rush_td : α
  targets : α
  receptions : α
  rec_yd : α
  rec_td : α
  off_fum : α
  def_pass_cmp : α
  def_pass_att : α
  def_pass_yd : α
  def_pass_td : α
  def_int : α
  def_sacks : α
  def_rush_att : α
  def_rush_yd : α
  def_rush_td : α
  def_targets : α
  def_rec : α
  def_rec_yd : α
  def_rec_td : α
  def_fum : α
deriving DecidableEq

/-- Encodings of a team's `next_op` cell after `df_team.fillna(0.0)`:
genuinely missing (`None`/NaN), the numeric `0.0` produced by `fillna`,
the empty string, or an actual opponent key. -/
inductive NextOp where
  | missing : NextOp
  | zero : NextOp
  | empty : NextOp
  | opp : String → NextOp
deriving DecidableEq

/-- One row of the team dataset fed to `analyze`: raw weighted counting
stats, the list of opponents faced (`opps`), and the next opponent.  The
`games` column is recomputed by `analyze` as `len(opps)`. -/
structure TeamRaw where
  stats : Stats ℚ
  opps : List String
  next_op : NextOp
deriving DecidableEq

/-- Game count of a team row, as recomputed by `analyze`
(`df_team_avg['games'] = df_team_avg['opps'].apply(len)`). -/
def TeamRaw.games (t : TeamRaw) : ℚ :=
  (t.opps.length : ℚ)

/-- Team rate conversion of `analyze` (the per-attempt / per-game block),
reproducing the source's sequential in-place column mutation: `rush_att` is
overwritten with its per-game value before `rush_yd`/`rush_td`/`off_fum`
read it, and is divided by `games` a second time afterwards; `targets` is
overwritten with a per-pass-attempt share before `receptions` reads it;
`pass_att` keeps its raw value until the final per-game division.  The
stage-final cleanup (`replace([inf,-inf],0)` and `fillna(0)`) is `clean`. -/
def teamRates (t : TeamRaw) : Stats ℚ :=
  let s := t.stats
  let g := t.games
  let pass_cmp := vdiv s.pass_cmp s.pass_att
  let pass_yd := vdiv s.pass_yd s.pass_att
  let pass_td := vdiv s.pass_td s.pass_att
  let pass_int := vdiv s.pass_int s.pass_att
  let sacks := vdiv s.sacks g
  let rush_att1 := vdiv s.rush_att g
  let rush_yd := vdivV (some s.rush_yd) (epsGuardV rush_att1)
  let rush_td := vdivV (some s.rush_td) (epsGuardV rush_att1)
  let targets := vdiv s.targets (epsGuard s.pass_att)
  let receptions := vdivV (some s.receptions) (epsGuardV targets)
  let rec_yd := vdiv s.rec_yd (epsGuard s.pass_att)
  let rec_td := vdiv s.rec_td (epsGuard s.pass_att)
  let off_fum := vdivV (some s.off_fum) (epsGuardV (vadd (some s.pass_att) rush_att1))
  let pass_att := vdiv s.pass_att g
  let rush_att := vdivV rush_att1 (some g)
  let def_pass_cmp := vdiv s.def_pass_cmp (epsGuard s.def_pass_att)
  let def_pass_yd := vdiv s.def_pass_yd (epsGuard s.def_pass_att)
  let def_pass_td := vdiv s.def_pass_td (epsGuard s.def_pass_att)
  let def_int := vdiv s.def_int (epsGuard s.def_pass_att)
  let def_sacks := vdiv s.def_sacks g
  let def_rush_yd := vdiv s.def_rush_yd (epsGuard s.def_rush_att)
  let def_rush_td := vdiv s.def_rush_td (epsGuard s.def_rush_att)
  let def_targets := vdiv s.def_targets (epsGuard s.def_pass_att)
  let def_rec := vdiv s.def_rec (epsGuard s.def_pass_att)
  let def_rec_yd := vdiv s.def_rec_yd (epsGuard s.def_pass_att)
  let def_rec_td := vdiv s.def_rec_td (epsGuard s.def_pass_att)
  let def_fum := vdiv s.def_fum (epsGuard (s.def_pass_att + s.def_rush_att))
  let def_pass_att := vdiv s.def_pass_att g
  let def_rush_att := vdiv s.def_rush_att g
  { pass_cmp := clean pass_cmp
    pass_att := clean pass_att
    pass_yd := clean pass_yd
    pass_td := clean pass_td
    pass_int := clean pass_int
    sacks := clean sacks
    rush_att := clean rush_att
    rush_yd := clean rush_yd
    rush_td := clean rush_td
    targets := clean targets
    receptions := clean receptions
    rec_yd := clean rec_yd
    rec_td := clean rec_td
    off_fum := clean off_fum
    def_pass_cmp := clean def_pass_cmp
    def_pass_att := clean def_pass_att
    def_pass_yd := clean def_pass_yd
    def_pass_td := clean def_pass_td
    def_int := clean def_int
    def_sacks := clean def_sacks
    def_rush_att := clean def_rush_att
    def_rush_yd := clean def_rush_yd
    def_rush_td := clean def_rush_td
    def_targets := clean def_targets
    def_rec := clean def_rec
    def_rec_yd := clean def_rec_yd
    def_rec_td := clean def_rec_td
    def_fum := clean def_fum }

/-- Sum of one raw stat over all team rows (the league totals of
`analyze`). -/
def sumStat (ts : List TeamRaw) (f : Stats ℚ → ℚ) : ℚ :=
  (ts.map (fun t => f t.stats)).sum

/-- Total game count over all team rows (`df_team_avg["games"].sum()`). -/
def numGames (ts : List TeamRaw) : ℚ :=
  (ts.map (fun t => t.games)).sum

/-- League-average row of `analyze`: each stat's league rate is the sum of
raw numerators over all teams divided by the corresponding league
denominator total (games, pass attempts, rush attempts, or their defensive
mirrors), exactly as in lines 637-665 of the source. -/
def leagueAvg (ts : List TeamRaw) : Stats (Option ℚ) :=
  let nG := numGames ts
  let nPass := sumStat ts (fun s => s.pass_att)
  let nRush := sumStat ts (fun s => s.rush_att)
  let nDefPass := sumStat ts (fun s => s.def_pass_att)
  let nDefRush := sumStat ts (fun s => s.def_rush_att)
  { pass_cmp := vdiv (sumStat ts (fun s => s.pass_cmp)) nG
    pass_att := vdiv (sumStat ts (fun s => s.pass_att)) nG
    pass_yd := vdiv (sumStat ts (fun s => s.pass_yd)) nPass
    pass_td := vdiv (sumStat ts (fun s => s.pass_td)) nPass
    pass_int := vdiv (sumStat ts (fun s => s.pass_int)) nPass
    sacks := vdiv (sumStat ts (fun s => s.sacks)) nG
    rush_att := vdiv (sumStat ts (fun s => s.rush_att)) nG
    rush_yd := vdiv (sumStat ts (fun s => s.rush_yd)) nRush
    rush_td := vdiv (sumStat ts (fun s => s.rush_td)) nRush
    targets := vdiv (sumStat ts (fun s => s.targets)) nPass
    receptions := vdiv (sumStat ts (fun s => s.receptions)) nPass
    rec_yd := vdiv (sumStat ts (fun s => s.rec_yd)) nPass
    rec_td := vdiv (sumStat ts (fun s => s.rec_td)) nPass
    off_fum := vdiv (sumStat ts (fun s => s.off_fum)) (nPass + nRush)
    def_pass_cmp := vdiv (sumStat ts (fun s => s.def_pass_cmp)) nG
    def_pass_att := vdiv (sumStat ts (fun s => s.def_pass_att)) nG
    def_pass_yd := vdiv (sumStat ts (fun s => s.def_pass_yd)) nDefPass
    def_pass_td := vdiv (sumStat ts (fun s => s.def_pass_td)) nDefPass
    def_int := vdiv (sumStat ts (fun s => s.def_int)) nDefPass
    def_sacks := vdiv (sumStat ts (fun s => s.def_sacks)) nG
    def_rush_att := vdiv (sumStat ts (fun s => s.def_rush_att)) nG
    def_rush_yd := vdiv (sumStat ts (fun s => s.def_rush_yd)) nDefRush
    def_rush_td := vdiv (sumStat ts (fun s => s.def_rush_td)) nDefRush
    def_targets := vdiv (sumStat ts (fun s => s.def_targets)) nDefPass
    def_rec := vdiv (sumStat ts (fun s => s.def_rec)) nDefPass
    def_rec_yd := vdiv (sumStat ts (fun s => s.def_rec_yd)) nDefPass
    def_rec_td := vdiv (sumStat ts (fun s => s.def_rec_td)) nDefPass
    def_fum := vdiv (sumStat ts (fun s => s.def_fum)) (nDefPass + nDefRush) }

/-- Ratio of one team rate to the league rate, with the source's guard
`stat_value = stat if stat != 0 else 0.0001` on the league value, followed
by the cleanup sweep. -/
def ratioOf (rate : ℚ) (lg : Option ℚ) : ℚ :=
  clean (vdivV (some rate) (epsGuardV lg))

/-- Ratio-to-league columns (`ratio_<stat>`) of one team row within a
league: every one of the 28 rate columns divided by the guarded league
value. -/
def ratioStats (ts : List TeamRaw) (t : TeamRaw) : Stats ℚ :=
  let r := teamRates t
  let lg := leagueAvg ts
  { pass_cmp := ratioOf r.pass_cmp lg.pass_cmp
    pass_att := ratioOf r.pass_att lg.pass_att
    pass_yd := ratioOf r.pass_yd lg.pass_yd
    pass_td := ratioOf r.pass_td lg.pass_td
    pass_int := ratioOf r.pass_int lg.pass_int
    sacks := ratioOf r.sacks lg.sacks
    rush_att := ratioOf r.rush_att lg.rush_att
    rush_yd := ratioOf r.rush_yd lg.rush_yd
    rush_td := ratioOf r.rush_td lg.rush_td
    targets := ratioOf r.targets lg.targets
    receptions := ratioOf r.receptions lg.receptions
    rec_yd := ratioOf r.rec_yd lg.rec_yd
    rec_td := ratioOf r.rec_td lg.rec_td
    off_fum := ratioOf r.off_fum lg.off_fum
    def_pass_cmp := ratioOf r.def_pass_cmp lg.def_pass_cmp
    def_pass_att := ratioOf r.def_pass_att lg.def_pass_att
    def_pass_yd := ratioOf r.def_pass_yd lg.def_pass_yd
    def_pass_td := ratioOf r.def_pass_td lg.def_pass_td
    def_int := ratioOf r.def_int lg.def_int
    def_sacks := ratioOf r.def_sacks lg.def_sacks
    def_rush_att := ratioOf r.def_rush_att lg.def_rush_att
    def_rush_yd := ratioOf r.def_rush_yd lg.def_rush_yd
    def_rush_td := ratioOf r.def_rush_td lg.def_rush_td
    def_targets := ratioOf r.def_targets lg.def_targets
    def_rec := ratioOf r.def_rec lg.def_rec
    def_rec_yd := ratioOf r.def_rec_yd lg.def_rec_yd
    def_rec_td := ratioOf r.def_rec_td lg.def_rec_td
    def_fum := ratioOf r.def_fum lg.def_fum }

/-- Sum of looked-up values over a list of opponent keys, failing (as the
source's unguarded `df.loc[team, stat]` does with a `KeyError`) when a key
is absent from the table. -/
def sumLook (look : String → Option ℚ) : List String → Except Unit ℚ
  | [] => Except.ok 0
  | t :: ts =>
    match look t with
    | none => Except.error ()
    | some v => (sumLook look ts).map (fun s => v + s)

/-- Embedding of `calc_matchup_str`: accumulate the stat over the team's
`opps` list (raising on a missing key), then return `0` when `games == 0`
and the mean otherwise. -/
def calcMatchupStr (look : String → Option ℚ) (opps : List String) : Except Unit ℚ :=
  (sumLook look opps).map (fun s => if opps.length = 0 then 0 else s / (opps.length : ℚ))

/-- One fully derived team row as seen by the projection stage of
`analyze`: rate columns, ratio columns, schedule-strength columns (over the
ratio columns, so field `f` of `schedstr` models `schedstr_ratio_<f>`), and
the next opponent. -/
structure TeamRow where
  rates : Stats ℚ
  ratio : Stats ℚ
  schedstr : Stats ℚ
  next_op : NextOp
deriving DecidableEq

/-- Embedding of `safe_get_opponent_ratio`: look up the player's team's
`next_op`; treat a missing team row, a missing/NaN/`0.0`/empty `next_op`,
or a missing opponent row as the neutral multiplier `1.0`; otherwise select
the requested column of the opponent's row. -/
def safeGetOpponentRatio (env : String → Option TeamRow) (team : String)
    (sel : TeamRow → ℚ) : ℚ :=
  match env team with
  | none => 1
  | some tr =>
    match tr.next_op with
    | NextOp.missing => 1
    | NextOp.zero => 1
    | NextOp.empty => 1
    | NextOp.opp o =>
      match env o with
      | none => 1
      | some otr => sel otr

/-- Raw per-player aggregate row fed to the player block of `analyze`
(columns after the renaming in `create_player_dataset_from_game_data`);
`receptions` is the source's `rec`, `tar` its `targets`, `fum` its
`fumbles`, `g` the games-played count. -/
structure PlayerRaw where
  pass_cmp : ℚ
  pass_att : ℚ
  pass_yd : ℚ
  pass_td : ℚ
  pass_int : ℚ
  sacks : ℚ
  rush_att : ℚ
  rush_yd : ℚ
  rush_td : ℚ
  tar : ℚ
  receptions : ℚ
  rec_yd : ℚ
  rec_td : ℚ
  fum : ℚ
  g : ℚ
deriving DecidableEq

/-- Per-attempt / per-game player rates produced by `analyze`
(lines 744-759 of the source). -/
structure PlayerRates where
  pass_cmp : ℚ
  pass_att : ℚ
  pass_yd : ℚ
  pass_td : ℚ
  pass_int : ℚ
  sacks : ℚ
  rush_att : ℚ
  rush_yd : ℚ
  rush_td : ℚ
  tar : ℚ
  receptions : ℚ
  rec_yd : ℚ
  rec_td : ℚ
  fum : ℚ
  g : ℚ
deriving DecidableEq

/-- Player rate conversion of `analyze`: every division is epsilon-guarded
(`.replace(0, 0.0001)`); rate stats divide by the raw attempt columns,
`fum` divides by raw `tar + rush_att`, and only afterwards are `tar`,
`pass_att`, `rush_att` divided by games `g`. -/
def playerRates (p : PlayerRaw) : PlayerRates :=
  { pass_cmp := p.pass_cmp / epsGuard p.pass_att
    pass_att := p.pass_att / epsGuard p.g
    pass_yd := p.pass_yd / epsGuard p.pass_att
    pass_td := p.pass_td / epsGuard p.pass_att
    pass_int := p.pass_int / epsGuard p.pass_att
    sacks := p.sacks
    rush_att := p.rush_att / epsGuard p.g
    rush_yd := p.rush_yd / epsGuard p.rush_att
    rush_td := p.rush_td / epsGuard p.rush_att
    tar := p.tar / epsGuard p.g
    receptions := p.receptions / epsGuard p.tar
    rec_yd := p.rec_yd / epsGuard p.tar
    rec_td := p.rec_td / epsGuard p.tar
    fum := p.fum / epsGuard (p.tar + p.rush_att)
    g := p.g }

/-- Rounding to two decimal places, modelling pandas `.round(2)` (the
tie-breaking direction of binary-float rounding is immaterial to every
claim below). -/
def round2 (x : ℚ) : ℚ :=
  (round (100 * x) : ℚ) / 100

/-- Pointwise two-decimal rounding of a player-rate row, modelling
`df_player_proj = df_player_avg.copy().round(2)` (line 770). -/
def roundRates (r : PlayerRates) : PlayerRates :=
  { pass_cmp := round2 r.pass_cmp
    pass_att := round2 r.pass_att
    pass_yd := round2 r.pass_yd
    pass_td := round2 r.pass_td
    pass_int := round2 r.pass_int
    sacks := round2 r.sacks
    rush_att := round2 r.rush_att
    rush_yd := round2 r.rush_yd
    rush_td := round2 r.rush_td
    tar := round2 r.tar
    receptions := round2 r.receptions
    rec_yd := round2 r.rec_yd
    rec_td := round2 r.rec_td
    fum := round2 r.fum
    g := round2 r.g }

/-- Core-ability columns of a player row (`core_<stat>`), after the
stage-final cleanup. -/
structure CoreOut where
  core_pass_att : ℚ
  core_rush_att : ℚ
  core_tar : ℚ
  core_pass_yd : ℚ
  core_pass_td : ℚ
  core_int : ℚ
  core_rush_yd : ℚ
  core_rush_td : ℚ
  core_receptions : ℚ
  core_rec_yd : ℚ
  core_rec_td : ℚ
  core_fum : ℚ
deriving DecidableEq

/-- Core-ability computation of `analyze` (lines 771-787): attempt bases
divided by the team's `schedstr_ratio_def_<att>` columns, rate stats
multiplied on top of the raw (pre-cleanup) attempt bases, then one cleanup
sweep over all core columns.  `ss` holds the team's schedule-strength
values over ratio columns, so `ss.def_pass_att` models
`schedstr_ratio_def_pass_att`. -/
def coreStats (r : PlayerRates) (ss : Stats ℚ) : CoreOut :=
  let cpa := vdiv r.pass_att ss.def_pass_att
  let cra := vdiv r.rush_att ss.def_rush_att
  let ctar := vdiv r.tar ss.def_pass_att
  let cpy := vmul cpa (vdiv r.pass_yd ss.def_pass_yd)
  let cpt := vmul cpa (vdiv r.pass_td ss.def_pass_td)
  let cin := vmul cpa (vdiv r.pass_int ss.def_int)
  let cry := vmul cra (vdiv r.rush_yd ss.def_rush_yd)
  let crt := vmul cra (vdiv r.rush_td ss.def_rush_td)
  let crc := vmul ctar (vdiv r.receptions ss.def_rec)
  let ccy := vmul ctar (vdiv r.rec_yd ss.def_rec_yd)
  let cct := vmul ctar (vdiv r.rec_td ss.def_rec_td)
  let cfm := vmul (vadd ctar cra) (vdiv r.fum ss.def_fum)
  { core_pass_att := clean cpa
    core_rush_att := clean cra
    core_tar := clean ctar
    core_pass_yd := clean cpy
    core_pass_td := clean cpt
    core_int := clean cin
    core_rush_yd := clean cry
    core_rush_td := clean crt
    core_receptions := clean crc
    core_rec_yd := clean ccy
    core_rec_td := clean cct
    core_fum := clean cfm }

/-- Projection columns of a player row (`proj_<stat>`), after the final
cleanup. -/
structure ProjOut where
  proj_pass_att : ℚ
  proj_rush_att : ℚ
  proj_tar : ℚ
  proj_pass_yd : ℚ
  proj_pass_td : ℚ
  proj_int : ℚ
  proj_rush_yd : ℚ
  proj_rush_td : ℚ
  proj_receptions : ℚ
  proj_rec_yd : ℚ
  proj_rec_td : ℚ
  proj_fum : ℚ
deriving DecidableEq

/-- Forward-projection computation of `analyze` (lines 804-820): attempt
bases scaled by the next opponent's `ratio_def_<att>` via
`safe_get_opponent_ratio`; rate stats built on the projected attempts,
the player rate over team schedule strength, and the opponent multiplier —
which is `ratio_def_<stat>` for every stat except `proj_fum`, where the
source passes the raw rate column name `def_fum` (line 816).  Ends with the
final cleanup sweep. -/
def projStats (env : String → Option TeamRow) (team : String)
    (r : PlayerRates) (ss : Stats ℚ) (c : CoreOut) : ProjOut :=
  let sr := fun sel => safeGetOpponentRatio env team sel
  let ppa := c.core_pass_att * sr (fun tr => tr.ratio.def_pass_att)
  let pra := c.core_rush_att * sr (fun tr => tr.ratio.def_rush_att)
  let ptar := c.core_tar * sr (fun tr => tr.ratio.def_pass_att)
  let ppy := vmul (vmul (some ppa) (vdiv r.pass_yd ss.def_pass_yd))
    (some (sr (fun tr => tr.ratio.def_pass_yd)))
  let ppt := vmul (vmul (some ppa) (vdiv r.pass_td ss.def_pass_td))
    (some (sr (fun tr => tr.ratio.def_pass_td)))
  let pin := vmul (vmul (some ppa) (vdiv r.pass_int ss.def_int))
    (some (sr (fun tr => tr.ratio.def_int)))
  let pry := vmul (vmul (some pra) (vdiv r.rush_yd ss.def_rush_yd))
    (some (sr (fun tr => tr.ratio.def_rush_yd)))
  let prt := vmul (vmul (some pra) (vdiv r.rush_td ss.def_rush_td))
    (some (sr (fun tr => tr.ratio.def_rush_td)))
  let prc := vmul (vmul (some ptar) (vdiv r.receptions ss.def_rec))
    (some (sr (fun tr => tr.ratio.def_rec)))
  let pcy := vmul (vmul (some ptar) (vdiv r.rec_yd ss.def_rec_yd))
    (some (sr (fun tr => tr.ratio.def_rec_yd)))
  let pct := vmul (vmul (some ptar) (vdiv r.rec_td ss.def_rec_td))
    (some (sr (fun tr => tr.ratio.def_rec_td)))
  let pfm := vmul (vmul (vadd (some ptar) (some pra)) (vdiv r.fum ss.def_fum))
    (some (sr (fun tr => tr.rates.def_fum)))
  { proj_pass_att := ppa
    proj_rush_att := pra
    proj_tar := ptar
    proj_pass_yd := clean ppy
    proj_pass_td := clean ppt
    proj_int := clean pin
    proj_rush_yd := clean pry
    proj_rush_td := clean prt
    proj_receptions := clean prc
    proj_rec_yd := clean pcy
    proj_rec_td := clean pct
    proj_fum := clean pfm }

/-- Player portion of `analyze` downstream of line 770: rates are rounded
to two decimals first, and the core and projection columns are computed
from the rounded rates. -/
def playerOutputs (env : String → Option TeamRow) (team : String)
    (ss : Stats ℚ) (p : PlayerRaw) : CoreOut × ProjOut :=
  let r := roundRates (playerRates p)
  let c := coreStats r ss
  (c, projStats env team r ss c)

/-- Descending sort, modelling Python `sorted(xs, reverse=True)`. -/
def sortDesc (l : List ℕ) : List ℕ :=
  l.insertionSort (fun a b => a ≥ b)

/-- Ascending sort, modelling Python `sorted(xs)`. -/
def sortAsc (l : List ℕ) : List ℕ :=
  (sortDesc l).reverse

/-- Python slice `l[:k]` with a possibly negative bound: a negative `k`
keeps all but the last `|k|` elements (this arises in the week-3+ branch
when more than ten current-season weeks are available). -/
def pySliceTo (l : List ℕ) (k : ℤ) : List ℕ :=
  if 0 ≤ k then l.take k.toNat else l.take (l.length - (-k).toNat)

/-- Current-season weeks selected by `create_time_weighted_dataset_dynamic`:
none for week 1, the single earliest available week for week 2, and all
available weeks below the projection week otherwise.  `avail2025` models
`df_2025['week'].unique()` (hence the `dedup`). -/
def weeksToInclude2025 (avail2025 : List ℕ) (projWeek : ℕ) : List ℕ :=
  if projWeek = 1 then []
  else if projWeek = 2 then (sortAsc avail2025.dedup).take 1
  else (sortAsc avail2025.dedup).filter (fun w => w < projWeek)

/-- Prior-season weeks selected by `create_time_weighted_dataset_dynamic`:
the ten most recent target weeks for week 1, the nine most recent for
week 2, and a Python slice `[:10 - len(weeks_2025)]` of the descending
target list otherwise. -/
def weeksToInclude2024 (avail2025 target2024 : List ℕ) (projWeek : ℕ) : List ℕ :=
  if projWeek = 1 then (sortDesc target2024).take 10
  else if projWeek = 2 then (sortDesc target2024).take 9
  else pySliceTo (sortDesc target2024)
    (10 - ((weeksToInclude2025 avail2025 projWeek).length : ℤ))

/-- Pairs of an index and an element, modelling Python `enumerate` starting
at index `i`. -/
def idxPairs (i : ℕ) : List ℕ → List (ℕ × ℕ)
  | [] => []
  | x :: xs => (i, x) :: idxPairs (i + 1) xs

/-- Week-to-weight association built by the source's weight loop: iterate
over the selected weeks in descending order and assign
`start - index * 0.1`.  The 2025 loop uses `start = 1.0`; the 2024 loop
uses `start = 1.0 - len(weeks_2025) * 0.1`. -/
def weightPairs (start : ℚ) (sel : List ℕ) : List (ℕ × ℚ) :=
  (idxPairs 0 (sortDesc sel)).map (fun p => (p.2, start - (p.1 : ℚ) / 10))

/-- Weight association for the selected current-season weeks. -/
def weightPairs2025 (avail2025 : List ℕ) (projWeek : ℕ) : List (ℕ × ℚ) :=
  weightPairs 1 (weeksToInclude2025 avail2025 projWeek)

/-- Weight association for the selected prior-season weeks, whose start
weight continues the decay after the current-season weeks. -/
def weightPairs2024 (avail2025 target2024 : List ℕ) (projWeek : ℕ) : List (ℕ × ℚ) :=
  weightPairs (1 - ((weeksToInclude2025 avail2025 projWeek).length : ℚ) / 10)
    (weeksToInclude2024 avail2025 target2024 projWeek)

/-- Counting stats of one game row (pre-renaming column names of the raw
game data; `receptions` is the source's `receptions` column). -/
structure PStats where
  pass_cmp : ℚ
  pass_att : ℚ
  pass_yds : ℚ
  pass_tds : ℚ
  pass_int : ℚ
  sacks : ℚ
  rush_att : ℚ
  rush_yds : ℚ
  rush_tds : ℚ
  targets : ℚ
  receptions : ℚ
  rec_yds : ℚ
  rec_tds : ℚ
  fumbles : ℚ
deriving DecidableEq

/-- One player-game row of the time-weighted dataset. -/
structure GameRow where
  player : String
  team : String
  week : ℕ
  time_weight : ℚ
  stats : PStats
deriving DecidableEq

/-- One consolidated player aggregate produced by
`create_player_dataset_from_game_data`. -/
structure PlayerAgg where
  name : String
  team : String
  stats : PStats
  g : ℕ
deriving DecidableEq

/-- Zero counting stats. -/
def zeroP : PStats :=
  ⟨0, 0, 0, 0, 0, 0, 0, 0, 0, 0, 0, 0, 0, 0⟩

/-- Multiplication of every counting stat by the row's time weight
(the pre-aggregation weighting loop of the source). -/
def scaleStats (w : ℚ) (s : PStats) : PStats :=
  { pass_cmp := w * s.pass_cmp
    pass_att := w * s.pass_att
    pass_yds := w * s.pass_yds
    pass_tds := w * s.pass_tds
    pass_int := w * s.pass_int
    sacks := w * s.sacks
    rush_att := w * s.rush_att
    rush_yds := w * s.rush_yds
    rush_tds := w * s.rush_tds
    targets := w * s.targets
    receptions := w * s.receptions
    rec_yds := w * s.rec_yds
    rec_tds := w * s.rec_tds
    fumbles := w * s.fumbles }

/-- Componentwise sum of counting stats. -/
def addStats (a b : PStats) : PStats :=
  { pass_cmp := a.pass_cmp + b.pass_cmp
    pass_att := a.pass_att + b.pass_att
    pass_yds := a.pass_yds + b.pass_yds
    pass_tds := a.pass_tds + b.pass_tds
    pass_int := a.pass_int + b.pass_int
    sacks := a.sacks + b.sacks
    rush_att := a.rush_att + b.rush_att
    rush_yds := a.rush_yds + b.rush_yds
    rush_tds := a.rush_tds + b.rush_tds
    targets := a.targets + b.targets
    receptions := a.receptions + b.receptions
    rec_yds := a.rec_yds + b.rec_yds
    rec_tds := a.rec_tds + b.rec_tds
    fumbles := a.fumbles + b.fumbles }

/-- Sum of the time-weighted stats of a list of rows (the `groupby('player').sum()`
aggregation applied after the weighting loop). -/
def sumWeighted (rows : List GameRow) : PStats :=
  rows.foldr (fun r acc => addStats (scaleStats r.time_weight r.stats) acc) zeroP

/-- Rows belonging to one player. -/
def rowsOf (rows : List GameRow) (p : String) : List GameRow :=
  rows.filter (fun r => r.player = p)

/-- Games played: the number of distinct week values among the player's
rows (`groupby('player')['week'].nunique()`). -/
def gamesOf (rows : List GameRow) (p : String) : ℕ :=
  ((rowsOf rows p).map (fun r => r.week)).dedup.length

/-- Distinct player names occurring in a row list (the group keys). -/
def playerNames (rows : List GameRow) : List String :=
  (rows.map (fun r => r.player)).dedup

/-- Embedding of `create_player_dataset_from_game_data`: keep only rows of
active-roster players, group by player alone (not by team), sum weighted
counters, count distinct weeks as games, attach the current team from the
roster mapping, and drop players without a mapping (or with an empty team
value, per the trailing validation). -/
def createPlayerDataset (rows : List GameRow) (roster : List String)
    (mapping : String → Option String) : List PlayerAgg :=
  let filtered := rows.filter (fun r => roster.contains r.player)
  (playerNames filtered).filterMap (fun p =>
    match mapping p with
    | none => none
    | some tm =>
      if tm = "" then none
      else some ⟨p, tm, sumWeighted (rowsOf filtered p), gamesOf filtered p⟩)

/-- Stat record with every column zero. -/
def zeroStats : Stats ℚ :=
  ⟨0, 0, 0, 0, 0, 0, 0, 0, 0, 0, 0, 0, 0, 0, 0, 0, 0, 0, 0, 0, 0, 0, 0, 0, 0, 0, 0, 0⟩

/-- Stat record with every column one. -/
def onesStats : Stats ℚ :=
  ⟨1, 1, 1, 1, 1, 1, 1, 1, 1, 1, 1, 1, 1, 1, 1, 1, 1, 1, 1, 1, 1, 1, 1, 1, 1, 1, 1, 1⟩

/-- Box-score line of each team of the symmetric two-team example league:
10 pass attempts with 5 completions for 70 yards, 20 rush attempts for 80
yards, and the identical defensive mirror (each team's defense faced
exactly the other team's offense). -/
def cexStats : Stats ℚ :=
  ⟨5, 10, 70, 1, 0, 1, 20, 80, 1, 10, 5, 70, 1, 1,
   5, 10, 70, 1, 0, 1, 20, 80, 1, 10, 5, 70, 1, 1⟩

/-- Team A of the two-team example league: one game, against B. -/
def c1TeamA : TeamRaw :=
  ⟨cexStats, ["B"], NextOp.opp "B"⟩

/-- Team B of the two-team example league: one game, against A. -/
def c1TeamB : TeamRaw :=
  ⟨cexStats, ["A"], NextOp.opp "A"⟩

/-- The two-team example league. -/
def c1League : List TeamRaw :=
  [c1TeamA, c1TeamB]

/-- Example team with two games, 20 pass attempts and 10 rush attempts for
50 rush yards, used to exhibit the denominators actually applied by the
team rate conversion. -/
def c2Team : TeamRaw :=
  ⟨⟨10, 20, 100, 1, 0, 2, 10, 50, 4, 12, 8, 90, 2, 3,
    10, 20, 100, 1, 0, 2, 10, 50, 4, 12, 8, 90, 2, 3⟩, ["B", "C"], NextOp.missing⟩

/-- Schedule-strength row whose `schedstr_ratio_def_pass_att` is `0` while
every other entry is `1` (reachable when the lone opponent faced allowed no
pass attempts but a league-average rush volume). -/
def c3ss : Stats ℚ :=
  ⟨1, 1, 1, 1, 1, 1, 1, 1, 1, 1, 1, 1, 1, 1, 1, 0, 1, 1, 1, 1, 1, 1, 1, 1, 1, 1, 1, 1⟩

/-- Rounded player-rate row with one target, one rush attempt and one
fumble per relevant denominator, everything else zero. -/
def c3rates : PlayerRates :=
  ⟨0, 0, 0, 0, 0, 0, 1, 0, 0, 1, 0, 0, 0, 1, 1⟩

/-- Team row on a bye week (`next_op` missing) with the degenerate
schedule-strength row `c3ss`. -/
def c3row : TeamRow :=
  ⟨onesStats, onesStats, c3ss, NextOp.missing⟩

/-- Environment containing only the bye-week team `T`. -/
def c3env : String → Option TeamRow :=
  fun s => if s = "T" then some c3row else none

/-- Opponent row whose raw defensive fumble rate (`def_fum = 5`) differs
from its ratio-to-league value (`ratio_def_fum = 1`). -/
def c4opp : TeamRow :=
  ⟨⟨1, 1, 1, 1, 1, 1, 1, 1, 1, 1, 1, 1, 1, 1, 1, 1, 1, 1, 1, 1, 1, 1, 1, 1, 1, 1, 1, 5⟩,
   onesStats, onesStats, NextOp.missing⟩

/-- Team row whose next opponent is `O`. -/
def c4row : TeamRow :=
  ⟨onesStats, onesStats, onesStats, NextOp.opp "O"⟩

/-- Environment containing the team `T` and its next opponent `O`. -/
def c4env : String → Option TeamRow :=
  fun s => if s = "T" then some c4row else if s = "O" then some c4opp else none

/-- Rounded player-rate row with one target and one fumble per relevant
denominator, everything else zero. -/
def c4rates : PlayerRates :=
  ⟨0, 0, 0, 0, 0, 0, 0, 0, 0, 1, 0, 0, 0, 1, 1⟩

/-- Game rows of the consolidation example: Alice appears under two
historical teams `X` and `Y`, Bob under `X` only. -/
def c9rows : List GameRow :=
  [⟨"Alice", "X", 1, 1, ⟨5, 10, 70, 1, 0, 0, 2, 9, 0, 0, 0, 0, 0, 0⟩⟩,
   ⟨"Alice", "Y", 2, 9 / 10, ⟨4, 10, 60, 0, 1, 0, 0, 0, 0, 0, 0, 0, 0, 1⟩⟩,
   ⟨"Bob", "X", 1, 1, ⟨0, 0, 0, 0, 0, 0, 8, 40, 1, 0, 0, 0, 0, 0⟩⟩]

/-- Active roster of the consolidation example. -/
def c9roster : List String :=
  ["Alice", "Bob"]

/-- Roster mapping of the consolidation example: Alice currently plays for
a third team `Z`; Bob is absent from the mapping. -/
def c9mapping : String → Option String :=
  fun s => if s = "Alice" then some "Z" else none

/-- Player aggregate with 1000 raw pass attempts for 4 yards in one game
(per-attempt rate 0.004, rounding to 0.00). -/
def c10p : PlayerRaw :=
  ⟨0, 1000, 4, 0, 0, 0, 0, 0, 0, 0, 0, 0, 0, 0, 1⟩

/-- Player aggregate identical to `c10p` except for 1 passing yard
(per-attempt rate 0.001, also rounding to 0.00). -/
def c10q : PlayerRaw :=
  ⟨0, 1000, 1, 0, 0, 0, 0, 0, 0, 0, 0, 0, 0, 0, 1⟩

/-- Empty team environment. -/
def emptyEnv : String → Option TeamRow :=
  fun _ => none

/-- Ratio lookup table of the matchup-strength example: only team `A` is
present. -/
def c8look : String → Option ℚ :=
  fun t => if t = "A" then some 1 else none

/-- Simp lemma: multiplying by a non-finite right operand is absorbing. -/
@[simp]
theorem vmul_none_right (x : Option ℚ) : vmul x none = none := by
  cases x <;> rfl

/-- Simp lemma: multiplying by a non-finite left operand is absorbing. -/
@[simp]
theorem vmul_none_left (x : Option ℚ) : vmul none x = none := by
  cases x <;> rfl

/-- Simp lemma: finite multiplication. -/
@[simp]
theorem vmul_some_some (a b : ℚ) : vmul (some a) (some b) = some (a * b) := rfl

/-- Simp lemma: adding a non-finite right operand is absorbing. -/
@[simp]
theorem vadd_none_right (x : Option ℚ) : vadd x none = none := by
  cases x <;> rfl

/-- Simp lemma: adding a non-finite left operand is absorbing. -/
@[simp]
theorem vadd_none_left (x : Option ℚ) : vadd none x = none := by
  cases x <;> rfl

/-- Simp lemma: finite addition. -/
@[simp]
theorem vadd_some_some (a b : ℚ) : vadd (some a) (some b) = some (a + b) := rfl

/-- Simp lemma: cleanup of a non-finite value yields zero. -/
@[simp]
theorem clean_none : clean none = 0 := rfl

/-- Simp lemma: cleanup of a finite value is the identity. -/
@[simp]
theorem clean_some (a : ℚ) : clean (some a) = a := rfl

/-- Simp lemma: division by an exact zero is non-finite. -/
@[simp]
theorem vdiv_zero (a : ℚ) : vdiv a 0 = none := by
  simp [vdiv]

/-- Division by a nonzero denominator is the finite quotient. -/
theorem vdiv_ne (a b : ℚ) (h : b ≠ 0) : vdiv a b = some (a / b) := by
  simp [vdiv, h]

/-- Helper for the bye-week analysis of rate projections: rebuilding a core
rate stat from the cleaned attempt base with neutral opponent multipliers
gives exactly the cleaned core value. -/
theorem clean_mul_one_factor (X d : Option ℚ) :
    clean (vmul (vmul (some (clean X * 1)) d) (some 1)) = clean (vmul X d) := by
  cases X <;> cases d <;> simp

/-- Helper for the bye-week analysis of the fumble projection when both
attempt bases are finite. -/
theorem clean_fum_factor (a b : ℚ) (d : Option ℚ) :
    clean (vmul (vmul (vadd (some (a * 1)) (some (b * 1))) d) (some 1))
      = clean (vmul (vadd (some a) (some b)) d) := by
  cases d <;> simp

/-- C5: for a team with an empty opponents list (`games == 0`) the
schedule-strength computation returns `0` for every stat rather than
failing, and every downstream core-ability and projection value of a player
on that team is exactly `0` — finite, with no NaN/Inf surviving the
cleanup sweeps and no error raised. -/
theorem c5_games_zero_safe (look : String → Option ℚ) (r : PlayerRates)
    (env : String → Option TeamRow) (team : String) :
    calcMatchupStr look [] = Except.ok 0 ∧
    coreStats r zeroStats = ⟨0, 0, 0, 0, 0, 0, 0, 0, 0, 0, 0, 0⟩ ∧
    projStats env team r zeroStats (coreStats r zeroStats)
      = ⟨0, 0, 0, 0, 0, 0, 0, 0, 0, 0, 0, 0⟩ := by
  refine ⟨rfl, ?_, ?_⟩
  · simp [coreStats, zeroStats]
  · simp [projStats, coreStats, zeroStats]

/-- C2 counterexample: on a team with 2 games, 20 pass attempts, 10 rush
attempts, 50 rush yards and 12 targets, the code yields a rush-yard rate of
10 (not the claimed per-rush-attempt 50/10), a `rush_att` volume of 5/2
(divided by games twice, not the claimed per-game 10/2), and a `targets`
value of 12/20 (per pass attempt, not the claimed per-game 12/2); the
receiving, reception and fumble denominators likewise differ from the
claimed ones. -/
theorem c2_counterexample :
    (teamRates c2Team).rush_yd = 10 ∧ (teamRates c2Team).rush_yd ≠ 50 / 10 ∧
    (teamRates c2Team).rush_att = 5 / 2 ∧ (teamRates c2Team).rush_att ≠ 10 / 2 ∧
    (teamRates c2Team).targets = 12 / 20 ∧ (teamRates c2Team).targets ≠ 12 / 2 ∧
    (teamRates c2Team).receptions ≠ 8 / 12 ∧
    (teamRates c2Team).rec_yd ≠ 90 / 12 ∧
    (teamRates c2Team).off_fum ≠ 3 / 30 := by
  norm_num [teamRates, c2Team, TeamRaw.games, vdiv, vdivV, epsGuard, epsGuardV,
    clean, eps]

/-- C2 amended: the denominators the team rate conversion actually applies,
for a team with at least one game and positive pass attempts, rush attempts
and targets: passing stats divide by total pass attempts; `rush_yd` and
`rush_td` divide by per-game rush attempts (the `rush_att` column is
overwritten before being read); `targets`, `rec_yd`, `rec_td` divide by
total pass attempts; `receptions` divides by the targets-per-pass-attempt
share; `off_fum` divides by total pass attempts plus per-game rush
attempts; `pass_att` is per game while `rush_att` ends up divided by games
twice. -/
theorem c2_actual_denominators (t : TeamRaw) (hg : t.opps ≠ [])
    (hpa : 0 < t.stats.pass_att) (hra : 0 < t.stats.rush_att)
    (htar : 0 < t.stats.targets) :
    (teamRates t).pass_cmp = t.stats.pass_cmp / t.stats.pass_att ∧
    (teamRates t).pass_yd = t.stats.pass_yd / t.stats.pass_att ∧
    (teamRates t).pass_td = t.stats.pass_td / t.stats.pass_att ∧
    (teamRates t).pass_int = t.stats.pass_int / t.stats.pass_att ∧
    (teamRates t).sacks = t.stats.sacks / t.games ∧
    (teamRates t).rush_yd = t.stats.rush_yd / (t.stats.rush_att / t.games) ∧
    (teamRates t).rush_td = t.stats.rush_td / (t.stats.rush_att / t.games) ∧
    (teamRates t).targets = t.stats.targets / t.stats.pass_att ∧
    (teamRates t).receptions
      = t.stats.receptions / (t.stats.targets / t.stats.pass_att) ∧
    (teamRates t).rec_yd = t.stats.rec_yd / t.stats.pass_att ∧
    (teamRates t).rec_td = t.stats.rec_td / t.stats.pass_att ∧
    (teamRates t).off_fum
      = t.stats.off_fum / (t.stats.pass_att + t.stats.rush_att / t.games) ∧
    (teamRates t).pass_att = t.stats.pass_att / t.games ∧
    (teamRates t).rush_att = t.stats.rush_att / t.games / t.games := by
  have hgpos : (0 : ℚ) < t.games := by
    have h0 : 0 < t.opps.length := List.length_pos.mpr hg
    unfold TeamRaw.games
    exact_mod_cast h0
  have hgne : t.games ≠ 0 := ne_of_gt hgpos
  have h1 : t.stats.pass_att ≠ 0 := ne_of_gt hpa
  have h2 : t.stats.rush_att / t.games ≠ 0 := ne_of_gt (div_pos hra hgpos)
  have h3 : t.stats.targets / t.stats.pass_att ≠ 0 := ne_of_gt (div_pos htar hpa)
  have h4 : t.stats.pass_att + t.stats.rush_att / t.games ≠ 0 :=
    ne_of_gt (add_pos hpa (div_pos hra hgpos))
  refine ⟨?_, ?_, ?_, ?_, ?_, ?_, ?_, ?_, ?_, ?_, ?_, ?_, ?_, ?_⟩ <;>
    simp [teamRates, vdiv, vdivV, vadd_some_some, epsGuard, epsGuardV,
      h1, h2, h3, h4, hgne]

/-- C4 counterexample: with a next opponent whose `ratio_def_fum` is `1`
but whose raw `def_fum` rate is `5`, the fumble projection is multiplied by
`5` — the raw rate — and differs from the value the claimed ratio
multiplier would give. -/
theorem c4_counterexample :
    (projStats c4env "T" c4rates onesStats (coreStats c4rates onesStats)).proj_fum
      = c4opp.rates.def_fum ∧
    (projStats c4env "T" c4rates onesStats (coreStats c4rates onesStats)).proj_fum
      ≠ c4opp.ratio.def_fum := by
  have hT : c4env "T" = some c4row := rfl
  have hO : c4env "O" = some c4opp := rfl
  have hsel : ∀ sel, safeGetOpponentRatio c4env "T" sel = sel c4opp := by
    intro sel
    simp [safeGetOpponentRatio, hT, hO, c4row]
  norm_num [projStats, coreStats, hsel, c4opp, c4rates, onesStats,
    vdiv, vdivV, clean, eps]

/-- C4 amended: when the next opponent resolves, every projection stat
except fumbles is multiplied by the opponent's `ratio_def_<stat>` column,
while `proj_fum` is multiplied by the opponent's raw `def_fum` rate column
instead of `ratio_def_fum`. -/
theorem c4_opponent_multipliers (env : String → Option TeamRow) (team o : String)
    (tr otr : TeamRow) (r : PlayerRates) (ss : Stats ℚ) (c : CoreOut)
    (h1 : env team = some tr) (h2 : tr.next_op = NextOp.opp o)
    (h3 : env o = some otr) :
    (projStats env team r ss c).proj_pass_att
      = c.core_pass_att * otr.ratio.def_pass_att ∧
    (projStats env team r ss c).proj_rush_att
      = c.core_rush_att * otr.ratio.def_rush_att ∧
    (projStats env team r ss c).proj_tar = c.core_tar * otr.ratio.def_pass_att ∧
    (projStats env team r ss c).proj_pass_yd
      = clean (vmul (vmul (some ((projStats env team r ss c).proj_pass_att))
          (vdiv r.pass_yd ss.def_pass_yd)) (some otr.ratio.def_pass_yd)) ∧
    (projStats env team r ss c).proj_pass_td
      = clean (vmul (vmul (some ((projStats env team r ss c).proj_pass_att))
          (vdiv r.pass_td ss.def_pass_td)) (some otr.ratio.def_pass_td)) ∧
    (projStats env team r ss c).proj_int
      = clean (vmul (vmul (some ((projStats env team r ss c).proj_pass_att))
          (vdiv r.pass_int ss.def_int)) (some otr.ratio.def_int)) ∧
    (projStats env team r ss c).proj_rush_yd
      = clean (vmul (vmul (some ((projStats env team r ss c).proj_rush_att))
          (vdiv r.rush_yd ss.def_rush_yd)) (some otr.ratio.def_rush_yd)) ∧
    (projStats env team r ss c).proj_rush_td
      = clean (vmul (vmul (some ((projStats env team r ss c).proj_rush_att))
          (vdiv r.rush_td ss.def_rush_td)) (some otr.ratio.def_rush_td)) ∧
    (projStats env team r ss c).proj_receptions
      = clean (vmul (vmul (some ((projStats env team r ss c).proj_tar))
          (vdiv r.receptions ss.def_rec)) (some otr.ratio.def_rec)) ∧
    (projStats env team r ss c).proj_rec_yd
      = clean (vmul (vmul (some ((projStats env team r ss c).proj_tar))
          (vdiv r.rec_yd ss.def_rec_yd)) (some otr.ratio.def_rec_yd)) ∧
    (projStats env team r ss c).proj_rec_td
      = clean (vmul (vmul (some ((projStats env team r ss c).proj_tar))
          (vdiv r.rec_td ss.def_rec_td)) (some otr.ratio.def_rec_td)) ∧
    (projStats env team r ss c).proj_fum
      = clean (vmul (vmul (vadd (some ((projStats env team r ss c).proj_tar))
          (some ((projStats env team r ss c).proj_rush_att)))
          (vdiv r.fum ss.def_fum)) (some otr.rates.def_fum)) := by
  have hsel : ∀ sel, safeGetOpponentRatio env team sel = sel otr := by
    intro sel
    simp [safeGetOpponentRatio, h1, h2, h3]
  refine ⟨?_, ?_, ?_, ?_, ?_, ?_, ?_, ?_, ?_, ?_, ?_, ?_⟩ <;>
    simp [projStats, hsel]

/-- C8 counterexample: `calc_matchup_str` over an opponents list containing
a key (`"B"`) absent from the team table raises (a `KeyError` in the
source, an `Except.error` here) instead of treating the lookup as
neutral. -/
theorem c8_counterexample :
    calcMatchupStr c8look ["A", "B"] = Except.error () := by
  rfl

/-- C8 amended: the next-opponent lookups of `safe_get_opponent_ratio` are
neutral — a missing team row, an absent (`None`/NaN/`0.0`/empty) `next_op`,
or a next opponent absent from the table all yield the multiplier `1.0` —
but the schedule-strength loop of `calc_matchup_str` is not protected (see
the counterexample). -/
theorem c8_neutral_lookups (env : String → Option TeamRow) (team : String)
    (sel : TeamRow → ℚ) :
    (env team = none → safeGetOpponentRatio env team sel = 1) ∧
    (∀ tr, env team = some tr →
      tr.next_op = NextOp.missing ∨ tr.next_op = NextOp.zero ∨
        tr.next_op = NextOp.empty →
      safeGetOpponentRatio env team sel = 1) ∧
    (∀ tr o, env team = some tr → tr.next_op = NextOp.opp o → env o = none →
      safeGetOpponentRatio env team sel = 1) := by
  refine ⟨fun h => ?_, fun tr h habs => ?_, fun tr o h hop ho => ?_⟩
  · simp [safeGetOpponentRatio, h]
  · rcases habs with h2 | h2 | h2 <;> simp [safeGetOpponentRatio, h, h2]
  · simp [safeGetOpponentRatio, h, hop, ho]

/-- C8 witness: instantiating the neutral-lookup theorem at the empty
environment. -/
theorem c8_witness :
    emptyEnv "T" = none ∧
    safeGetOpponentRatio emptyEnv "T" (fun tr => tr.ratio.def_pass_att) = 1 :=
  ⟨rfl, (c8_neutral_lookups emptyEnv "T" (fun tr => tr.ratio.def_pass_att)).1 rfl⟩

/-- C10: the core and projection outputs of a player are a function of the
two-decimal-rounded player rates: two raw aggregates whose rounded rate
rows coincide produce identical core and projection columns. -/
theorem c10_round_before_core (env : String → Option TeamRow) (team : String)
    (ss : Stats ℚ) (p q : PlayerRaw)
    (h : roundRates (playerRates p) = roundRates (playerRates q)) :
    playerOutputs env team ss p = playerOutputs env team ss q := by
  simp only [playerOutputs, h]

/-- C3 counterexample: a player on a bye-week team (`next_op` missing)
whose team's `schedstr_ratio_def_pass_att` is `0` (but whose rush and
fumble schedule strengths are nonzero) gets `proj_fum = 1` while
`core_fum = 0`: the core value was an Inf swept to `0`, the projection is
rebuilt from the cleaned attempt bases, so the projection does not equal
the core ability despite the neutral 1.0 multiplier. -/
theorem c3_counterexample :
    c3row.next_op = NextOp.missing ∧
    (projStats c3env "T" c3rates c3row.schedstr
        (coreStats c3rates c3row.schedstr)).proj_fum
      ≠ (coreStats c3rates c3row.schedstr).core_fum := by
  have hT : c3env "T" = some c3row := rfl
  have hsel : ∀ sel, safeGetOpponentRatio c3env "T" sel = 1 := by
    intro sel
    simp [safeGetOpponentRatio, hT, c3row]
  refine ⟨rfl, ?_⟩
  norm_num [projStats, coreStats, hsel, c3row, c3ss, c3rates, vdiv, vdivV,
    clean, eps]

/-- C3 amended: for a player whose team's `next_op` is absent (missing,
NaN-filled `0.0`, or empty string), every projection equals the core value
for all attempt and rate stats except fumbles unconditionally, and
`proj_fum = core_fum` as well provided the team's
`schedstr_ratio_def_pass_att` and `schedstr_ratio_def_rush_att` are both
nonzero; the player is processed totally (never skipped, no failure). -/
theorem c3_bye_week_neutrality (env : String → Option TeamRow) (team : String)
    (tr : TeamRow) (r : PlayerRates) (h1 : env team = some tr)
    (h2 : tr.next_op = NextOp.missing ∨ tr.next_op = NextOp.zero ∨
      tr.next_op = NextOp.empty) :
    (projStats env team r tr.schedstr (coreStats r tr.schedstr)).proj_pass_att
      = (coreStats r tr.schedstr).core_pass_att ∧
    (projStats env team r tr.schedstr (coreStats r tr.schedstr)).proj_rush_att
      = (coreStats r tr.schedstr).core_rush_att ∧
    (projStats env team r tr.schedstr (coreStats r tr.schedstr)).proj_tar
      = (coreStats r tr.schedstr).core_tar ∧
    (projStats env team r tr.schedstr (coreStats r tr.schedstr)).proj_pass_yd
      = (coreStats r tr.schedstr).core_pass_yd ∧
    (projStats env team r tr.schedstr (coreStats r tr.schedstr)).proj_pass_td
      = (coreStats r tr.schedstr).core_pass_td ∧
    (projStats env team r tr.schedstr (coreStats r tr.schedstr)).proj_int
      = (coreStats r tr.schedstr).core_int ∧
    (projStats env team r tr.schedstr (coreStats r tr.schedstr)).proj_rush_yd
      = (coreStats r tr.schedstr).core_rush_yd ∧
    (projStats env team r tr.schedstr (coreStats r tr.schedstr)).proj_rush_td
      = (coreStats r tr.schedstr).core_rush_td ∧
    (projStats env team r tr.schedstr (coreStats r tr.schedstr)).proj_receptions
      = (coreStats r tr.schedstr).core_receptions ∧
    (projStats env team r tr.schedstr (coreStats r tr.schedstr)).proj_rec_yd
      = (coreStats r tr.schedstr).core_rec_yd ∧
    (projStats env team r tr.schedstr (coreStats r tr.schedstr)).proj_rec_td
      = (coreStats r tr.schedstr).core_rec_td ∧
    (tr.schedstr.def_pass_att ≠ 0 → tr.schedstr.def_rush_att ≠ 0 →
      (projStats env team r tr.schedstr (coreStats r tr.schedstr)).proj_fum
        = (coreStats r tr.schedstr).core_fum) := by
  have hsr : ∀ sel, safeGetOpponentRatio env team sel = 1 := by
    intro sel
    rcases h2 with h2 | h2 | h2 <;> simp [safeGetOpponentRatio, h1, h2]
  refine ⟨?_, ?_, ?_, ?_, ?_, ?_, ?_, ?_, ?_, ?_, ?_, ?_⟩
  · simp [projStats, coreStats, hsr]
  · simp [projStats, coreStats, hsr]
  · simp [projStats, coreStats, hsr]
  · simpa [projStats, coreStats, hsr] using
      clean_mul_one_factor (vdiv r.pass_att tr.schedstr.def_pass_att)
        (vdiv r.pass_yd tr.schedstr.def_pass_yd)
  · simpa [projStats, coreStats, hsr] using
      clean_mul_one_factor (vdiv r.pass_att tr.schedstr.def_pass_att)
        (vdiv r.pass_td tr.schedstr.def_pass_td)
  · simpa [projStats, coreStats, hsr] using
      clean_mul_one_factor (vdiv r.pass_att tr.schedstr.def_pass_att)
        (vdiv r.pass_int tr.schedstr.def_int)
  · simpa [projStats, coreStats, hsr] using
      clean_mul_one_factor (vdiv r.rush_att tr.schedstr.def_rush_att)
        (vdiv r.rush_yd tr.schedstr.def_rush_yd)
  · simpa [projStats, coreStats, hsr] using
      clean_mul_one_factor (vdiv r.rush_att tr.schedstr.def_rush_att)
        (vdiv r.rush_td tr.schedstr.def_rush_td)
  · simpa [projStats, coreStats, hsr] using
      clean_mul_one_factor (vdiv r.tar tr.schedstr.def_pass_att)
        (vdiv r.receptions tr.schedstr.def_rec)
  · simpa [projStats, coreStats, hsr] using
      clean_mul_one_factor (vdiv r.tar tr.schedstr.def_pass_att)
        (vdiv r.rec_yd tr.schedstr.def_rec_yd)
  · simpa [projStats, coreStats, hsr] using
      clean_mul_one_factor (vdiv r.tar tr.schedstr.def_pass_att)
        (vdiv r.rec_td tr.schedstr.def_rec_td)
  · intro ha hb
    by_cases hF : tr.schedstr.def_fum = 0
    · simp [projStats, coreStats, hsr, vdiv, ha, hb, hF]
    · simp [projStats, coreStats, hsr, vdiv, ha, hb, hF, mul_one]

/-- C2 witness: the amended denominator theorem instantiated at the
concrete example team. -/
theorem c2_witness :
    c2Team.opps ≠ [] ∧ 0 < c2Team.stats.pass_att ∧ 0 < c2Team.stats.rush_att ∧
    0 < c2Team.stats.targets ∧
    (teamRates c2Team).pass_yd = c2Team.stats.pass_yd / c2Team.stats.pass_att :=
  ⟨by decide, by norm_num [c2Team], by norm_num [c2Team], by norm_num [c2Team],
   (c2_actual_denominators c2Team (by decide) (by norm_num [c2Team])
      (by norm_num [c2Team]) (by norm_num [c2Team])).2.1⟩

/-- C3 witness: the amended bye-week theorem instantiated at the concrete
bye-week environment. -/
theorem c3_witness :
    c3env "T" = some c3row ∧ c3row.next_op = NextOp.missing ∧
    (projStats c3env "T" c3rates c3row.schedstr
        (coreStats c3rates c3row.schedstr)).proj_pass_att
      = (coreStats c3rates c3row.schedstr).core_pass_att :=
  ⟨rfl, rfl, (c3_bye_week_neutrality c3env "T" c3row c3rates rfl (Or.inl rfl)).1⟩

/-- C4 witness: the amended multiplier theorem instantiated at the concrete
team/opponent environment. -/
theorem c4_witness :
    c4env "T" = some c4row ∧ c4row.next_op = NextOp.opp "O" ∧
    c4env "O" = some c4opp ∧
    (projStats c4env "T" c4rates onesStats (coreStats c4rates onesStats)).proj_pass_att
      = (coreStats c4rates onesStats).core_pass_att * c4opp.ratio.def_pass_att :=
  ⟨rfl, rfl, rfl,
   (c4_opponent_multipliers c4env "T" "O" c4row c4opp c4rates onesStats
      (coreStats c4rates onesStats) rfl rfl rfl).1⟩

/-- C10 witness: two distinct raw aggregates (4 vs 1 passing yards on 1000
attempts) whose rounded rate rows coincide, yielding identical outputs. -/
theorem c10_witness :
    roundRates (playerRates c10p) = roundRates (playerRates c10q) ∧
    playerOutputs emptyEnv "T" onesStats c10p
      = playerOutputs emptyEnv "T" onesStats c10q := by
  have h : roundRates (playerRates c10p) = roundRates (playerRates c10q) := by
    norm_num [roundRates, playerRates, round2, epsGuard, eps, c10p, c10q, round_eq]
  exact ⟨h, c10_round_before_core emptyEnv "T" onesStats c10p c10q h⟩

/-- Closed form of `ratio_pass_yd` when the team's pass attempts and the
league sums are nonzero: the team's per-attempt passing yards divided by
the volume-weighted league rate. -/
theorem ratio_pass_yd_eq (ts : List TeamRaw) (t : TeamRaw)
    (h1 : t.stats.pass_att ≠ 0)
    (hY : sumStat ts (fun s => s.pass_yd) ≠ 0)
    (hA : sumStat ts (fun s => s.pass_att) ≠ 0) :
    (ratioStats ts t).pass_yd
      = (t.stats.pass_yd / t.stats.pass_att)
          / (sumStat ts (fun s => s.pass_yd) / sumStat ts (fun s => s.pass_att)) := by
  have hq : sumStat ts (fun s => s.pass_yd) / sumStat ts (fun s => s.pass_att) ≠ 0 :=
    div_ne_zero hY hA
  simp [ratioStats, ratioOf, teamRates, leagueAvg, vdiv, vdivV, epsGuardV, clean,
    h1, hA, hq]

/-- C1 counterexample: in the two-team example league the pass-completion
league rate is per game while each team's completion rate is per attempt,
so the volume-weighted mean of `ratio_pass_cmp` is 1/10, not 1 — whether
weighted by pass attempts (the claimed denominator volume for passing
rates) or by games. -/
theorem c1_counterexample :
    (c1League.map (fun t => t.stats.pass_att * (ratioStats c1League t).pass_cmp)).sum
      / (c1League.map (fun t => t.stats.pass_att)).sum ≠ 1 ∧
    (c1League.map (fun t => t.games * (ratioStats c1League t).pass_cmp)).sum
      / (c1League.map (fun t => t.games)).sum ≠ 1 := by
  norm_num [ratioStats, ratioOf, teamRates, leagueAvg, sumStat, numGames,
    c1League, c1TeamA, c1TeamB, cexStats, TeamRaw.games, vdiv, vdivV,
    epsGuard, epsGuardV, clean, eps]

/-- C1 amended: the volume-weighted league identity does hold for the rate
stats whose league rate is computed over the same denominator as the
per-team rate — here `pass_yd`, per pass attempt on both sides: with every
team's pass attempts nonzero and nonzero league sums, the pass-attempt
weighted mean of `ratio_pass_yd` over all teams is exactly 1. -/
theorem c1_league_identity (ts : List TeamRaw)
    (hmem : ∀ t ∈ ts, t.stats.pass_att ≠ 0)
    (hY : sumStat ts (fun s => s.pass_yd) ≠ 0)
    (hA : sumStat ts (fun s => s.pass_att) ≠ 0) :
    (ts.map (fun t => t.stats.pass_att * (ratioStats ts t).pass_yd)).sum
      / sumStat ts (fun s => s.pass_att) = 1 := by
  have hstep : ∀ t ∈ ts,
      t.stats.pass_att * (ratioStats ts t).pass_yd
        = t.stats.pass_yd * (sumStat ts (fun s => s.pass_att)
            / sumStat ts (fun s => s.pass_yd)) := by
    intro t ht
    have h1 : t.stats.pass_att ≠ 0 := hmem t ht
    rw [ratio_pass_yd_eq ts t h1 hY hA]
    field_simp
    ring
  rw [List.map_congr_left hstep, List.sum_map_mul_right]
  have hsum : (ts.map (fun t => t.stats.pass_yd)).sum
      = sumStat ts (fun s => s.pass_yd) := rfl
  rw [hsum]
  field_simp

/-- C1 witness: the amended league identity instantiated at the two-team
example league. -/
theorem c1_witness :
    (∀ t ∈ c1League, t.stats.pass_att ≠ 0) ∧
    sumStat c1League (fun s => s.pass_yd) ≠ 0 ∧
    sumStat c1League (fun s => s.pass_att) ≠ 0 ∧
    (c1League.map (fun t => t.stats.pass_att * (ratioStats c1League t).pass_yd)).sum
      / sumStat c1League (fun s => s.pass_att) = 1 :=
  ⟨by norm_num [c1League, c1TeamA, c1TeamB, cexStats],
   by norm_num [sumStat, c1League, c1TeamA, c1TeamB, cexStats],
   by norm_num [sumStat, c1League, c1TeamA, c1TeamB, cexStats],
   c1_league_identity c1League (by norm_num [c1League, c1TeamA, c1TeamB, cexStats])
     (by norm_num [sumStat, c1League, c1TeamA, c1TeamB, cexStats])
     (by norm_num [sumStat, c1League, c1TeamA, c1TeamB, cexStats])⟩

/-- Filtering to the active roster and then to one rostered player keeps
exactly that player's rows. -/
theorem filter_roster_comm (rows : List GameRow) (roster : List String)
    (p : String) (hro : roster.contains p = true) :
    (rows.filter (fun r => roster.contains r.player)).filter
        (fun r => r.player = p)
      = rows.filter (fun r => r.player = p) := by
  have hrom : p ∈ roster := by simpa using hro
  rw [List.filter_filter]
  apply List.filter_congr
  intro a _
  by_cases hp : a.player = p
  · simp [hp, hrom]
  · simp [hp]

/-- In the aggregate list built from a Nodup name list by a name-preserving
row builder, a present name with a defined row contributes exactly one
aggregate carrying that name. -/
theorem filter_name_len_one (f : String → Option PlayerAgg)
    (hf : ∀ s a, f s = some a → a.name = s) (p : String) (a0 : PlayerAgg)
    (hfp : f p = some a0) :
    ∀ names : List String, names.Nodup → p ∈ names →
      ((names.filterMap f).filter (fun a => a.name = p)).length = 1 := by
  intro names
  induction names with
  | nil => intro _ hp; cases hp
  | cons s l ih =>
    intro hnd hp
    have hnd2 : l.Nodup := (List.nodup_cons.mp hnd).2
    have hs_notin : s ∉ l := (List.nodup_cons.mp hnd).1
    rcases List.mem_cons.mp hp with hps | hpl
    · subst hps
      have ha0 : a0.name = p := hf p a0 hfp
      have hrest : (l.filterMap f).filter (fun a => a.name = p) = [] := by
        rw [List.filter_eq_nil_iff]
        intro a ha
        rcases List.mem_filterMap.mp ha with ⟨s2, hs2, hfs2⟩
        have hn : a.name = s2 := hf s2 a hfs2
        simp only [hn, decide_eq_true_eq]
        intro heq
        exact hs_notin (heq ▸ hs2)
      simp [List.filterMap_cons, hfp, List.filter_cons, ha0, hrest]
    · have hsp : s ≠ p := fun h => hs_notin (h ▸ hpl)
      cases hfs : f s with
      | none =>
        simp only [List.filterMap_cons, hfs]
        exact ih hnd2 hpl
      | some b =>
        have hb : b.name ≠ p := by rw [hf s b hfs]; exact hsp
        simp only [List.filterMap_cons, hfs, List.filter_cons]
        simp [hb]
        exact ih hnd2 hpl

/-- C9: roster consolidation — an active-roster player with game rows under
any number of historical teams has exactly one aggregate, carrying the
current team from the roster mapping, with stats summed over all of the
player's weighted rows and games counted as distinct weeks; a player absent
from the mapping yields no aggregate (and no failure). -/
theorem c9_consolidation (rows : List GameRow) (roster : List String)
    (mapping : String → Option String) (p t3 : String)
    (hro : roster.contains p = true)
    (hmap : mapping p = some t3) (ht3 : t3 ≠ "")
    (hex : ∃ r ∈ rows, r.player = p) :
    ((createPlayerDataset rows roster mapping).filter
        (fun a => a.name = p)).length = 1 ∧
    (∀ a ∈ createPlayerDataset rows roster mapping, a.name = p →
      a.team = t3 ∧
      a.stats = sumWeighted (rows.filter (fun r => r.player = p)) ∧
      a.g = ((rows.filter (fun r => r.player = p)).map
        (fun r => r.week)).dedup.length) ∧
    (∀ q, mapping q = none →
      ∀ a ∈ createPlayerDataset rows roster mapping, a.name ≠ q) := by
  classical
  set filtered := rows.filter (fun r => roster.contains r.player) with hfilt
  set f : String → Option PlayerAgg := fun s =>
    match mapping s with
    | none => none
    | some tm =>
      if tm = "" then none
      else some ⟨s, tm, sumWeighted (rowsOf filtered s), gamesOf filtered s⟩
    with hfdef
  have hds : createPlayerDataset rows roster mapping
      = (playerNames filtered).filterMap f := rfl
  have hf : ∀ s a, f s = some a → a.name = s := by
    intro s a hfs
    simp only [hfdef] at hfs
    cases hm : mapping s with
    | none => simp [hm] at hfs
    | some tm =>
      by_cases htm : tm = ""
      · simp [hm, htm] at hfs
      · simp [hm, htm] at hfs
        subst hfs
        rfl
  have hp_in : p ∈ playerNames filtered := by
    obtain ⟨r, hr, hpr⟩ := hex
    have hrf : r ∈ filtered := by
      rw [hfilt]
      refine List.mem_filter.mpr ⟨hr, ?_⟩
      show roster.contains r.player = true
      rw [hpr]
      exact hro
    have hmm : r.player ∈ filtered.map (fun r => r.player) :=
      List.mem_map_of_mem _ hrf
    rw [hpr] at hmm
    exact List.mem_dedup.mpr hmm
  have hnd_names : (playerNames filtered).Nodup := List.nodup_dedup _
  have hfp : f p = some ⟨p, t3, sumWeighted (rowsOf filtered p),
      gamesOf filtered p⟩ := by
    simp only [hfdef]
    simp [hmap, ht3]
  have hrows_eq : rowsOf filtered p = rows.filter (fun r => r.player = p) := by
    rw [hfilt]
    exact filter_roster_comm rows roster p hro
  refine ⟨?_, ?_, ?_⟩
  · rw [hds]
    exact filter_name_len_one f hf p _ hfp (playerNames filtered) hnd_names hp_in
  · intro a ha hname
    rw [hds] at ha
    rcases List.mem_filterMap.mp ha with ⟨s, hs, hfs⟩
    have hname_s : a.name = s := hf s a hfs
    have hsp : s = p := by rw [hname] at hname_s; exact hname_s.symm
    subst hsp
    have ha_eq : a = ⟨s, t3, sumWeighted (rowsOf filtered s),
        gamesOf filtered s⟩ := (Option.some.inj (hfp.symm.trans hfs)).symm
    subst ha_eq
    exact ⟨rfl, by rw [hrows_eq], by simp only [gamesOf, hrows_eq]⟩
  · intro q hq a ha
    rw [hds] at ha
    rcases List.mem_filterMap.mp ha with ⟨s, hs, hfs⟩
    rw [hf s a hfs]
    rintro rfl
    simp only [hfdef] at hfs
    simp [hq] at hfs

/-- C9 witness: the consolidation theorem instantiated at the example with
Alice's rows under teams `X` and `Y`, a roster mapping to `Z`, and Bob
absent from the mapping. -/
theorem c9_witness :
    c9roster.contains "Alice" = true ∧ c9mapping "Alice" = some "Z" ∧
    ("Z" : String) ≠ "" ∧ (∃ r ∈ c9rows, r.player = "Alice") ∧
    ((createPlayerDataset c9rows c9roster c9mapping).filter
        (fun a => a.name = "Alice")).length = 1 ∧
    (∀ a ∈ createPlayerDataset c9rows c9roster c9mapping, a.name ≠ "Bob") :=
  ⟨by decide, rfl, by decide, by decide,
   (c9_consolidation c9rows c9roster c9mapping "Alice" "Z" (by decide) rfl
      (by decide) (by decide)).1,
   (c9_consolidation c9rows c9roster c9mapping "Alice" "Z" (by decide) rfl
      (by decide) (by decide)).2.2 "Bob" rfl⟩

/-- Week component of the weight association: the pairs list over a
selection as built by the source's loop carries exactly the selected weeks
in descending order. -/
theorem weightPairs_map_fst (start : ℚ) (sel : List ℕ) :
    (weightPairs start sel).map Prod.fst = sortDesc sel := by
  suffices h : ∀ (l : List ℕ) (i : ℕ),
      ((idxPairs i l).map (fun p => ((p.2 : ℕ), start - (p.1 : ℚ) / 10))).map
        Prod.fst = l by
    exact h (sortDesc sel) 0
  intro l
  induction l with
  | nil => intro i; rfl
  | cons x xs ih =>
    intro i
    simp [idxPairs, ih (i + 1)]

/-- Weight component of the weight association: the assigned weights are
`start - index * 0.1` over the positions of the descending week order. -/
theorem weightPairs_map_snd (start : ℚ) (sel : List ℕ) :
    (weightPairs start sel).map Prod.snd
      = (List.range (sortDesc sel).length).map
          (fun j : ℕ => start - (j : ℚ) / 10) := by
  have h : ∀ (l : List ℕ) (i : ℕ),
      ((idxPairs i l).map (fun p => ((p.2 : ℕ), start - (p.1 : ℚ) / 10))).map
          Prod.snd
        = (List.range l.length).map (fun j => start - ((i + j : ℕ) : ℚ) / 10) := by
    intro l
    induction l with
    | nil => intro i; rfl
    | cons x xs ih =>
      intro i
      simp only [idxPairs, List.map_cons, List.length_cons, List.range_succ_eq_map]
      refine congrArg₂ List.cons ?_ ?_
      · norm_num
      · rw [ih (i + 1), List.map_map]
        apply List.map_congr_left
        intro j hj
        simp only [Function.comp_apply]
        push_cast
        ring
  unfold weightPairs
  rw [h (sortDesc sel) 0]
  apply List.map_congr_left
  intro j hj
  norm_num

/-- C6: for projection week 2, the window consists of exactly one
current-season week — the earliest available — with weight 1.0, plus
exactly the 9 most recent prior-season target weeks with weights 0.9 down
to 0.1 in descending recency order. -/
theorem c6_week2_window (avail target : List ℕ)
    (ha : avail ≠ []) (hnd : target.Nodup) (hlen : 9 ≤ target.length) :
    (∃ a, weeksToInclude2025 avail 2 = [a] ∧ a ∈ avail ∧ (∀ w ∈ avail, a ≤ w) ∧
      weightPairs2025 avail 2 = [(a, 1)]) ∧
    (weeksToInclude2024 avail target 2).length = 9 ∧
    (∀ w ∈ weeksToInclude2024 avail target 2, w ∈ target) ∧
    (∀ v ∈ target, v ∉ weeksToInclude2024 avail target 2 →
      ∀ w ∈ weeksToInclude2024 avail target 2, v < w) ∧
    (weightPairs2024 avail target 2).map Prod.fst
      = weeksToInclude2024 avail target 2 ∧
    (weightPairs2024 avail target 2).map Prod.snd
      = [9 / 10, 8 / 10, 7 / 10, 6 / 10, 5 / 10, 4 / 10, 3 / 10, 2 / 10, 1 / 10] := by
  have hd : avail.dedup ≠ [] := by
    cases avail with
    | nil => exact absurd rfl ha
    | cons y ys =>
      exact List.ne_nil_of_mem (List.mem_dedup.mpr (List.mem_cons_self y ys))
  have hsalen : (sortAsc avail.dedup).length = avail.dedup.length := by
    unfold sortAsc sortDesc
    rw [List.length_reverse]
    exact (List.perm_insertionSort _ avail.dedup).length_eq
  have hsa : sortAsc avail.dedup ≠ [] := by
    intro h
    apply hd
    have := congrArg List.length h
    rw [hsalen] at this
    exact List.length_eq_zero.mp this
  obtain ⟨a, rest, hcons⟩ : ∃ a rest, sortAsc avail.dedup = a :: rest := by
    cases h : sortAsc avail.dedup with
    | nil => exact absurd h hsa
    | cons a rest => exact ⟨a, rest, rfl⟩
  have h25 : weeksToInclude2025 avail 2 = [a] := by
    unfold weeksToInclude2025
    rw [hcons]
    rfl
  have hsort_asc : (sortAsc avail.dedup).Sorted (fun x y => x ≤ y) := by
    unfold sortAsc
    exact (List.pairwise_reverse).mpr (List.sorted_insertionSort _ avail.dedup)
  have hmem_asc : ∀ w ∈ avail, w ∈ sortAsc avail.dedup := by
    intro w hw
    unfold sortAsc
    rw [List.mem_reverse]
    exact ((List.perm_insertionSort _ avail.dedup).mem_iff).mpr
      (List.mem_dedup.mpr hw)
  have hamem : a ∈ avail := by
    have : a ∈ sortAsc avail.dedup := by rw [hcons]; exact List.mem_cons_self a rest
    unfold sortAsc at this
    rw [List.mem_reverse] at this
    exact List.mem_dedup.mp (((List.perm_insertionSort _ avail.dedup).mem_iff).mp this)
  have hmin : ∀ w ∈ avail, a ≤ w := by
    intro w hw
    have hw2 := hmem_asc w hw
    rw [hcons] at hw2
    rcases List.mem_cons.mp hw2 with h | h
    · exact h ▸ le_refl a
    · have hs := hsort_asc
      rw [hcons] at hs
      exact List.rel_of_sorted_cons hs w h
  have hwp25 : weightPairs2025 avail 2 = [(a, 1)] := by
    unfold weightPairs2025
    rw [h25]
    unfold weightPairs
    have hone : sortDesc [a] = [a] := by
      unfold sortDesc
      simp [List.insertionSort, List.orderedInsert]
    rw [hone]
    simp [idxPairs]
  have hperm : List.Perm (sortDesc target) target := List.perm_insertionSort _ target
  have hLsort : (sortDesc target).Sorted (fun x y => x ≥ y) :=
    List.sorted_insertionSort _ target
  have hLnodup : (sortDesc target).Nodup := (hperm.nodup_iff).mpr hnd
  have hLlen : (sortDesc target).length = target.length := hperm.length_eq
  have h24 : weeksToInclude2024 avail target 2 = (sortDesc target).take 9 := rfl
  have hlen9 : ((sortDesc target).take 9).length = 9 := by
    rw [List.length_take, hLlen]
    omega
  have hsorted_take : ((sortDesc target).take 9).Sorted (fun x y => x ≥ y) :=
    List.Pairwise.sublist (List.take_sublist 9 (sortDesc target)) hLsort
  have hsd_take : sortDesc ((sortDesc target).take 9) = (sortDesc target).take 9 :=
    List.Sorted.insertionSort_eq hsorted_take
  refine ⟨⟨a, h25, hamem, hmin, hwp25⟩, ?_, ?_, ?_, ?_, ?_⟩
  · rw [h24]
    exact hlen9
  · intro w hw
    rw [h24] at hw
    exact hperm.subset (List.mem_of_mem_take hw)
  · intro v hv hvn w hw
    rw [h24] at hvn hw
    have hvL : v ∈ sortDesc target := (hperm.mem_iff).mpr hv
    have hsplit : sortDesc target
        = (sortDesc target).take 9 ++ (sortDesc target).drop 9 :=
      (List.take_append_drop 9 (sortDesc target)).symm
    have hvd : v ∈ (sortDesc target).drop 9 := by
      rw [hsplit] at hvL
      rcases List.mem_append.mp hvL with h | h
      · exact absurd h hvn
      · exact h
    have hpw : List.Pairwise (fun x y => x ≥ y)
        ((sortDesc target).take 9 ++ (sortDesc target).drop 9) := by
      rw [← hsplit]
      exact hLsort
    have hge : w ≥ v := (List.pairwise_append.mp hpw).2.2 w hw v hvd
    have hne : v ≠ w := by
      rintro rfl
      exact hvn hw
    exact lt_of_le_of_ne hge hne
  · unfold weightPairs2024
    rw [h25, h24, weightPairs_map_fst, hsd_take]
  · unfold weightPairs2024
    rw [h25, h24, weightPairs_map_snd, hsd_take, hlen9]
    norm_num [List.range_succ]

/-- C6 witness: the week-2 window theorem instantiated at one available
current-season week and the default 2024 target weeks 9-17. -/
theorem c6_witness :
    ([1] : List ℕ) ≠ [] ∧
    ([9, 10, 11, 12, 13, 14, 15, 16, 17] : List ℕ).Nodup ∧
    9 ≤ ([9, 10, 11, 12, 13, 14, 15, 16, 17] : List ℕ).length ∧
    ((∃ a, weeksToInclude2025 [1] 2 = [a] ∧ a ∈ [1] ∧
        (∀ w ∈ ([1] : List ℕ), a ≤ w) ∧ weightPairs2025 [1] 2 = [(a, 1)]) ∧
      (weeksToInclude2024 [1] [9, 10, 11, 12, 13, 14, 15, 16, 17] 2).length = 9 ∧
      (∀ w ∈ weeksToInclude2024 [1] [9, 10, 11, 12, 13, 14, 15, 16, 17] 2,
        w ∈ ([9, 10, 11, 12, 13, 14, 15, 16, 17] : List ℕ)) ∧
      (∀ v ∈ ([9, 10, 11, 12, 13, 14, 15, 16, 17] : List ℕ),
        v ∉ weeksToInclude2024 [1] [9, 10, 11, 12, 13, 14, 15, 16, 17] 2 →
        ∀ w ∈ weeksToInclude2024 [1] [9, 10, 11, 12, 13, 14, 15, 16, 17] 2,
          v < w) ∧
      (weightPairs2024 [1] [9, 10, 11, 12, 13, 14, 15, 16, 17] 2).map Prod.fst
        = weeksToInclude2024 [1] [9, 10, 11, 12, 13, 14, 15, 16, 17] 2 ∧
      (weightPairs2024 [1] [9, 10, 11, 12, 13, 14, 15, 16, 17] 2).map Prod.snd
        = [9 / 10, 8 / 10, 7 / 10, 6 / 10, 5 / 10, 4 / 10, 3 / 10, 2 / 10,
            1 / 10]) :=
  ⟨by decide, by decide, by decide,
   c6_week2_window [1] [9, 10, 11, 12, 13, 14, 15, 16, 17]
     (by decide) (by decide) (by decide)⟩

/-- C7 counterexample: with eleven available current-season weeks and
projection week 12, week 1 is included in the window but receives time
weight `1.0 - 10 * 0.1 = 0`, which is not strictly positive — the claimed
bound `time_weight ∈ (0, 1]` fails. -/
theorem c7_counterexample :
    1 ∈ weeksToInclude2025 [1, 2, 3, 4, 5, 6, 7, 8, 9, 10, 11] 12 ∧
    (1, (0 : ℚ)) ∈ weightPairs2025 [1, 2, 3, 4, 5, 6, 7, 8, 9, 10, 11] 12 ∧
    ¬ ((0 : ℚ) < 0) := by
  refine ⟨by decide, ?_, by norm_num⟩
  have h1 : weeksToInclude2025 [1, 2, 3, 4, 5, 6, 7, 8, 9, 10, 11] 12
      = [1, 2, 3, 4, 5, 6, 7, 8, 9, 10, 11] := by decide
  have h2 : sortDesc [1, 2, 3, 4, 5, 6, 7, 8, 9, 10, 11]
      = [11, 10, 9, 8, 7, 6, 5, 4, 3, 2, 1] := by decide
  unfold weightPairs2025 weightPairs
  rw [h1, h2]
  norm_num [idxPairs]

/-- C7 amended: a weight assigned by the decay loop equals
`start - position * 0.1` along the descending week order, and lies in
`(0, 1]` precisely when the week's overall decay position is among the ten
most recent: for the current-season loop (start 1.0) any of the first ten
positions, and for the prior-season loop (start `1 - n/10` after `n`
current-season weeks) any position with `n + position < 10`.  Beyond ten
included weeks the weights reach 0 and then become negative. -/
theorem c7_weight_bounds :
    (∀ (sel : List ℕ) (w : ℕ) (q : ℚ), (sortDesc sel).length ≤ 10 →
      (w, q) ∈ weightPairs 1 sel → 0 < q ∧ q ≤ 1) ∧
    (∀ (n : ℕ) (sel : List ℕ) (w : ℕ) (q : ℚ),
      n + (sortDesc sel).length ≤ 10 →
      (w, q) ∈ weightPairs (1 - (n : ℚ) / 10) sel → 0 < q ∧ q ≤ 1) := by
  constructor
  · intro sel w q hl hmem
    have hq : q ∈ (weightPairs 1 sel).map Prod.snd :=
      List.mem_map_of_mem _ hmem
    rw [weightPairs_map_snd] at hq
    rcases List.mem_map.mp hq with ⟨j, hj, hjq⟩
    have hjlt : j < (sortDesc sel).length := List.mem_range.mp hj
    have hj9 : (j : ℚ) ≤ 9 := by
      have h9 : j ≤ 9 := by omega
      exact_mod_cast h9
    have hj0 : (0 : ℚ) ≤ (j : ℚ) := Nat.cast_nonneg j
    rw [← hjq]
    constructor <;> linarith
  · intro n sel w q hl hmem
    have hq : q ∈ (weightPairs (1 - (n : ℚ) / 10) sel).map Prod.snd :=
      List.mem_map_of_mem _ hmem
    rw [weightPairs_map_snd] at hq
    rcases List.mem_map.mp hq with ⟨j, hj, hjq⟩
    have hjlt : j < (sortDesc sel).length := List.mem_range.mp hj
    have hnj : (n : ℚ) + (j : ℚ) ≤ 9 := by
      have h9 : n + j ≤ 9 := by omega
      exact_mod_cast h9
    have hj0 : (0 : ℚ) ≤ (j : ℚ) := Nat.cast_nonneg j
    have hn0 : (0 : ℚ) ≤ (n : ℚ) := Nat.cast_nonneg n
    rw [← hjq]
    constructor <;> linarith

/-- C7 witness: the weight-bound theorem instantiated at a one-week
selection, whose single weight is 1.0. -/
theorem c7_witness :
    (sortDesc [5]).length ≤ 10 ∧ (5, (1 : ℚ)) ∈ weightPairs 1 [5] ∧
    (0 < (1 : ℚ) ∧ (1 : ℚ) ≤ 1) :=
  ⟨by decide,
   by norm_num [weightPairs, sortDesc, List.insertionSort, List.orderedInsert,
     idxPairs],
   c7_weight_bounds.1 [5] 5 1 (by decide)
     (by norm_num [weightPairs, sortDesc, List.insertionSort, List.orderedInsert,
       idxPairs])⟩
